import Mathlib

/-!
Verification development for the front end of the Astro template compiler:
the lexical tokenizer (internal/token.go) and the document tree model
(internal/node.go). The Go code is shallowly embedded: the byte buffer is a
`List Char` of latin1 code points, the mutable `Tokenizer` struct is threaded
explicitly, Go `panic` is an `Except.error`, and every Go loop is given a
fuel parameter (running out of fuel is a distinct `Except.error .outOfFuel`,
so an `.ok` result is always a faithfully completed Go execution).
-/

set_option maxRecDepth 20000

namespace AstroTok

/-- Character constants, named to avoid ambiguity with the surrounding text.
`nullChar` is the byte 0 that Go's `readByte` returns at end of input. -/
def nullChar : Char := Char.ofNat 0

def squote : Char := Char.ofNat 39

def dquote : Char := Char.ofNat 34

def btick : Char := Char.ofNat 96

def bslash : Char := Char.ofNat 92

def lbrace : Char := Char.ofNat 123

def rbrace : Char := Char.ofNat 125

def crChar : Char := Char.ofNat 13

def nlChar : Char := Char.ofNat 10

def ffChar : Char := Char.ofNat 12

def tabChar : Char := Char.ofNat 9

/-- Go `unicode.IsSpace(rune(c))` restricted to single bytes: the latin1
white space code points. -/
def isSpace (c : Char) : Bool :=
  c.toNat = 9 || c.toNat = 10 || c.toNat = 11 || c.toNat = 12 || c.toNat = 13 ||
  c.toNat = 32 || c.toNat = 133 || c.toNat = 160

/-- Go `'a' <= c && c <= 'z' || 'A' <= c && c <= 'Z'`. -/
def isAlpha (c : Char) : Bool :=
  (97 ≤ c.toNat && c.toNat ≤ 122) || (65 ≤ c.toNat && c.toNat ≤ 90)

/-- A TokenType is the type of a Token (token.go). -/
inductive TokenType where
  | ErrorToken
  | TextToken
  | StartTagToken
  | EndTagToken
  | SelfClosingTagToken
  | CommentToken
  | DoctypeToken
  | FrontmatterFenceToken
  | StartExpressionToken
  | EndExpressionToken
  deriving DecidableEq, Repr, Inhabited

/-- FrontmatterState tracks the open/closed state of Frontmatter. -/
inductive FrontmatterState where
  | FrontmatterInitial
  | FrontmatterOpen
  | FrontmatterClosed
  deriving DecidableEq, Repr, Inhabited

/-- MarkdownState (token.go). -/
inductive MarkdownState where
  | MarkdownInitial
  | MarkdownOpen
  | MarkdownClosed
  | MarkdownInnerTag
  deriving DecidableEq, Repr, Inhabited

/-- AttributeType is the type of an Attribute. -/
inductive AttributeType where
  | QuotedAttribute
  | EmptyAttribute
  | ExpressionAttribute
  | SpreadAttribute
  | ShorthandAttribute
  | TemplateLiteralAttribute
  deriving DecidableEq, Repr, Inhabited

/-- The only error value the tokenizer file ever assigns to `z.err` is
`io.EOF` (readByte); `ErrBufferExceeded` is declared but never stored here. -/
inductive TokError where
  | eof
  deriving DecidableEq, Repr

/-- Abnormal outcomes of the embedded functions: the two Go `panic` sites of
token.go, plus `outOfFuel`, the marker used when a fuel counter of this
embedding is exhausted (no Go counterpart; Go would simply keep looping). -/
inductive Fatal where
  | fragmentWithAttrs (element : List Char)
  | blockCommentInExpression
  | outOfFuel
  deriving DecidableEq, Repr

/-- loc.Span: a (start, end) byte-offset pair into the shared buffer. -/
structure Span where
  Start : Nat
  End : Nat
  deriving DecidableEq, Repr, Inhabited

/-- The Tokenizer state (token.go struct Tokenizer). The `io.Reader` field is
dropped: the whole input is already resident in `buf`. The Go slice
`expressionStack` grows at its end; here the list head is the most recently
pushed counter. `attr` stores (key span, value span) pairs. -/
structure Tokenizer where
  buf : List Char
  tt : TokenType
  prevTokenType : TokenType
  fm : FrontmatterState
  m : MarkdownState
  err : Option TokError
  raw : Span
  data : Span
  pendingAttrKey : Span
  pendingAttrVal : Span
  pendingAttrType : AttributeType
  attr : List (Span × Span)
  attrTypes : List AttributeType
  attrExpressionStack : Int
  nAttrReturned : Nat
  dashCount : Nat
  expressionStack : List Int
  openBraceIsExpressionStart : Bool
  rawTag : String
  textIsRaw : Bool
  convertNUL : Bool
  allowCDATA : Bool
  deriving DecidableEq, Repr

/-- Fuel budget handed to each inner loop; ample for every loop of the
tokenizer, all of which take at most a handful of steps per input byte. -/
def innerFuel (z : Tokenizer) : Nat := 8 * z.buf.length + 64

/-- readByte returns the next byte from the input buffer (token.go). It sets
`err` (io.EOF) when the read position is at or past the end of the buffer. -/
def readByte (z : Tokenizer) : Tokenizer × Char :=
  if z.buf.length ≤ z.raw.End then
    ({ z with err := some TokError.eof }, nullChar)
  else
    ({ z with raw.End := z.raw.End + 1 }, z.buf.getD z.raw.End nullChar)

/-- Buffered returns the input buffered but not yet tokenized. -/
def Buffered (z : Tokenizer) : List Char :=
  z.buf.drop z.raw.End

/-- Raw returns the unmodified text of the current token:
`z.buf[z.raw.Start:z.raw.End]`. -/
def Raw (z : Tokenizer) : List Char :=
  (z.buf.take z.raw.End).drop z.raw.Start

/-- Err returns the error associated with the most recent ErrorToken. -/
def Err (z : Tokenizer) : Option TokError :=
  if z.tt ≠ TokenType.ErrorToken then none else z.err

/-- The loop of skipWhiteSpace (token.go). -/
def skipWhiteSpaceLoop : Nat → Tokenizer → Except Fatal Tokenizer
  | 0, _ => .error .outOfFuel
  | fuel+1, z =>
    let p := readByte z
    let z := p.1
    if z.err ≠ none then .ok z
    else if isSpace p.2 then skipWhiteSpaceLoop fuel z
    else .ok { z with raw.End := z.raw.End - 1 }

/-- skipWhiteSpace skips past any white space. -/
def skipWhiteSpace (fuel : Nat) (z : Tokenizer) : Except Fatal Tokenizer :=
  if z.err ≠ none then .ok z else skipWhiteSpaceLoop fuel z

/-- The search loop of readUntilChar (token.go). On a backslash the Go code
bumps `raw.End`, re-reads the byte at `data.Start` (sic) and re-runs both of
its match loops on that byte, mirrored literally here. -/
def readUntilChar : Nat → List Char → Tokenizer → Except Fatal Tokenizer
  | 0, _, _ => .error .outOfFuel
  | fuel+1, chars, z =>
    let p := readByte z
    let z := p.1
    if z.err ≠ none then .ok { z with data.End := z.raw.End - 1 }
    else
      let c := p.2
      if c = bslash then
        let z := { z with raw.End := z.raw.End + 1 }
        let c2 := z.buf.getD z.data.Start nullChar
        if chars.contains c2 then
          readUntilChar fuel chars { z with raw.End := z.raw.End + 1 }
        else if chars.contains c2 then .ok { z with data.End := z.raw.End }
        else readUntilChar fuel chars z
      else if chars.contains c then .ok { z with data.End := z.raw.End }
      else readUntilChar fuel chars z

/-- readString reads until a JavaScript string is closed (token.go). -/
def readString (fuel : Nat) (c : Char) (z : Tokenizer) : Except Fatal Tokenizer :=
  if c = squote then readUntilChar fuel [squote, crChar, nlChar] z
  else if c = dquote then readUntilChar fuel [dquote, crChar, nlChar] z
  else if c = btick then readUntilChar fuel [btick] z
  else .ok z

/-- The multi-line comment loop of readCommentOrRegExp (token.go): looks for
the asterisk of a closing delimiter, then checks the next byte. The Go loop
never checks `err` here, so at end of input it spins forever; in this
embedding that surfaces as `.error .outOfFuel`. -/
def readCommentOrRegExpLoop : Nat → Tokenizer → Except Fatal Tokenizer
  | 0, _ => .error .outOfFuel
  | fuel+1, z =>
    match readUntilChar (innerFuel z) [Char.ofNat 42] z with
    | .error e => .error e
    | .ok z =>
      let p := readByte z
      let z := p.1
      if p.2 = Char.ofNat 47 then .ok { z with data.End := z.raw.End }
      else readCommentOrRegExpLoop fuel z

/-- readCommentOrRegExp reads RegExp expressions and comments, starting from
the byte after an initial slash (token.go). -/
def readCommentOrRegExp (fuel : Nat) (boundaryChars : List Char) (z : Tokenizer) :
    Except Fatal Tokenizer :=
  let p := readByte z
  let z := p.1
  if p.2 = Char.ofNat 47 then readUntilChar fuel [crChar, nlChar] z
  else if p.2 = Char.ofNat 42 then readCommentOrRegExpLoop fuel z
  else
    readUntilChar fuel ([Char.ofNat 47, crChar, nlChar] ++ boundaryChars)
      { z with raw.End := z.raw.End - 1 }

/-- readRawEndTag attempts to read a tag like "</foo>" where "foo" is
z.rawTag; the leading "</" has already been consumed (token.go). The Go
index loop over `z.rawTag` is structural recursion over its characters here.
Matching is case-insensitive exactly as in Go: the stored tag byte or that
byte minus ('a'-'A'). -/
def readRawEndTagLoop : List Char → Tokenizer → Tokenizer × Bool
  | [], z => (z, true)
  | t :: ts, z =>
    let p := readByte z
    let z := p.1
    if z.err ≠ none then (z, false)
    else if p.2 ≠ t ∧ p.2.toNat ≠ t.toNat - 32 then
      ({ z with raw.End := z.raw.End - 1 }, false)
    else readRawEndTagLoop ts z

def readRawEndTag (z : Tokenizer) : Tokenizer × Bool :=
  match readRawEndTagLoop z.rawTag.toList z with
  | (z, false) => (z, false)
  | (z, true) =>
    let p := readByte z
    let z := p.1
    if z.err ≠ none then (z, false)
    else if p.2 = Char.ofNat 32 ∨ p.2 = nlChar ∨ p.2 = crChar ∨ p.2 = tabChar ∨
        p.2 = ffChar ∨ p.2 = Char.ofNat 47 ∨ p.2 = Char.ofNat 62 then
      ({ z with raw.End := z.raw.End - (3 + z.rawTag.length) }, true)
    else ({ z with raw.End := z.raw.End - 1 }, false)

/-- The label states of readScript (token.go), the HTML5 script-data escape
automaton. -/
inductive ScriptState where
  | scriptData
  | scriptDataLessThanSign
  | scriptDataEndTagOpen
  | scriptDataEscapeStart
  | scriptDataEscapeStartDash
  | scriptDataEscaped
  | scriptDataEscapedDash
  | scriptDataEscapedDashDash
  | scriptDataEscapedLessThanSign
  | scriptDataEscapedEndTagOpen
  | scriptDataDoubleEscapeStart
  | scriptDataDoubleEscaped
  | scriptDataDoubleEscapedDash
  | scriptDataDoubleEscapedDashDash
  | scriptDataDoubleEscapedLessThanSign
  | scriptDataDoubleEscapeEnd
  deriving DecidableEq, Repr

/-- The double-escape-start comparison loop: matches "script" / "SCRIPT"
byte by byte (token.go). Returns the state plus whether all six matched. -/
def doubleEscapeStartLoop : List (Char × Char) → Tokenizer → Tokenizer × Option Bool
  | [], z => (z, some true)
  | (lo, hi) :: ts, z =>
    let p := readByte z
    let z := p.1
    if z.err ≠ none then (z, none)
    else if p.2 ≠ lo ∧ p.2 ≠ hi then ({ z with raw.End := z.raw.End - 1 }, some false)
    else doubleEscapeStartLoop ts z

def scriptPairs : List (Char × Char) :=
  [('s', 'S'), ('c', 'C'), ('r', 'R'), ('i', 'I'), ('p', 'P'), ('t', 'T')]

/-- Outcome of one state of readScript: return, or go to the next state. -/
inductive ScriptRes where
  | done (z : Tokenizer)
  | goto (st : ScriptState) (z : Tokenizer)
  deriving DecidableEq, Repr

/-- One labelled state of readScript (token.go). -/
def scriptStep : ScriptState → Tokenizer → ScriptRes
  | .scriptData, z =>
    let p := readByte z
    let z := p.1
    if z.err ≠ none then .done z
    else if p.2 = Char.ofNat 60 then .goto .scriptDataLessThanSign z
    else .goto .scriptData z
  | .scriptDataLessThanSign, z =>
    let p := readByte z
    let z := p.1
    if z.err ≠ none then .done z
    else if p.2 = Char.ofNat 47 then .goto .scriptDataEndTagOpen z
    else if p.2 = Char.ofNat 33 then .goto .scriptDataEscapeStart z
    else .goto .scriptData { z with raw.End := z.raw.End - 1 }
  | .scriptDataEndTagOpen, z =>
    match readRawEndTag z with
    | (z, true) => .done z
    | (z, false) => .goto .scriptData z
  | .scriptDataEscapeStart, z =>
    let p := readByte z
    let z := p.1
    if z.err ≠ none then .done z
    else if p.2 = Char.ofNat 45 then .goto .scriptDataEscapeStartDash z
    else .goto .scriptData { z with raw.End := z.raw.End - 1 }
  | .scriptDataEscapeStartDash, z =>
    let p := readByte z
    let z := p.1
    if z.err ≠ none then .done z
    else if p.2 = Char.ofNat 45 then .goto .scriptDataEscapedDashDash z
    else .goto .scriptData { z with raw.End := z.raw.End - 1 }
  | .scriptDataEscaped, z =>
    let p := readByte z
    let z := p.1
    if z.err ≠ none then .done z
    else if p.2 = Char.ofNat 45 then .goto .scriptDataEscapedDash z
    else if p.2 = Char.ofNat 60 then .goto .scriptDataEscapedLessThanSign z
    else .goto .scriptDataEscaped z
  | .scriptDataEscapedDash, z =>
    let p := readByte z
    let z := p.1
    if z.err ≠ none then .done z
    else if p.2 = Char.ofNat 45 then .goto .scriptDataEscapedDashDash z
    else if p.2 = Char.ofNat 60 then .goto .scriptDataEscapedLessThanSign z
    else .goto .scriptDataEscaped z
  | .scriptDataEscapedDashDash, z =>
    let p := readByte z
    let z := p.1
    if z.err ≠ none then .done z
    else if p.2 = Char.ofNat 45 then .goto .scriptDataEscapedDashDash z
    else if p.2 = Char.ofNat 60 then .goto .scriptDataEscapedLessThanSign z
    else if p.2 = Char.ofNat 62 then .goto .scriptData z
    else .goto .scriptDataEscaped z
  | .scriptDataEscapedLessThanSign, z =>
    let p := readByte z
    let z := p.1
    if z.err ≠ none then .done z
    else if p.2 = Char.ofNat 47 then .goto .scriptDataEscapedEndTagOpen z
    else if isAlpha p.2 then .goto .scriptDataDoubleEscapeStart z
    else .goto .scriptData { z with raw.End := z.raw.End - 1 }
  | .scriptDataEscapedEndTagOpen, z =>
    match readRawEndTag z with
    | (z, true) => .done z
    | (z, false) =>
      if z.err ≠ none then .done z
      else .goto .scriptDataEscaped z
  | .scriptDataDoubleEscapeStart, z =>
    let z := { z with raw.End := z.raw.End - 1 }
    match doubleEscapeStartLoop scriptPairs z with
    | (z, none) => .done z
    | (z, some false) => .goto .scriptDataEscaped z
    | (z, some true) =>
      let p := readByte z
      let z := p.1
      if z.err ≠ none then .done z
      else if p.2 = Char.ofNat 32 ∨ p.2 = nlChar ∨ p.2 = crChar ∨ p.2 = tabChar ∨
          p.2 = ffChar ∨ p.2 = Char.ofNat 47 ∨ p.2 = Char.ofNat 62 then
        .goto .scriptDataDoubleEscaped z
      else .goto .scriptDataEscaped { z with raw.End := z.raw.End - 1 }
  | .scriptDataDoubleEscaped, z =>
    let p := readByte z
    let z := p.1
    if z.err ≠ none then .done z
    else if p.2 = Char.ofNat 45 then .goto .scriptDataDoubleEscapedDash z
    else if p.2 = Char.ofNat 60 then .goto .scriptDataDoubleEscapedLessThanSign z
    else .goto .scriptDataDoubleEscaped z
  | .scriptDataDoubleEscapedDash, z =>
    let p := readByte z
    let z := p.1
    if z.err ≠ none then .done z
    else if p.2 = Char.ofNat 45 then .goto .scriptDataDoubleEscapedDashDash z
    else if p.2 = Char.ofNat 60 then .goto .scriptDataDoubleEscapedLessThanSign z
    else .goto .scriptDataDoubleEscaped z
  | .scriptDataDoubleEscapedDashDash, z =>
    let p := readByte z
    let z := p.1
    if z.err ≠ none then .done z
    else if p.2 = Char.ofNat 45 then .goto .scriptDataDoubleEscapedDashDash z
    else if p.2 = Char.ofNat 60 then .goto .scriptDataDoubleEscapedLessThanSign z
    else if p.2 = Char.ofNat 62 then .goto .scriptData z
    else .goto .scriptDataDoubleEscaped z
  | .scriptDataDoubleEscapedLessThanSign, z =>
    let p := readByte z
    let z := p.1
    if z.err ≠ none then .done z
    else if p.2 = Char.ofNat 47 then .goto .scriptDataDoubleEscapeEnd z
    else .goto .scriptDataDoubleEscaped { z with raw.End := z.raw.End - 1 }
  | .scriptDataDoubleEscapeEnd, z =>
    match readRawEndTag z with
    | (z, true) => .goto .scriptDataEscaped { z with raw.End := z.raw.End + 9 }
    | (z, false) =>
      if z.err ≠ none then .done z
      else .goto .scriptDataDoubleEscaped z

/-- The goto graph of readScript as a fuel-bounded driver over
`scriptStep`. -/
def readScriptGo : Nat → ScriptState → Tokenizer → Except Fatal Tokenizer
  | 0, _, _ => .error .outOfFuel
  | fuel+1, st, z =>
    match scriptStep st z with
    | .done z => .ok z
    | .goto st z => readScriptGo fuel st z

/-- readScript reads until the next closing script tag, following the HTML5
escaping rules (token.go). The Go `defer` setting `data.End` on return is
applied to the successful result here. -/
def readScript (fuel : Nat) (z : Tokenizer) : Except Fatal Tokenizer :=
  match readScriptGo fuel .scriptData z with
  | .error e => .error e
  | .ok z => .ok { z with data.End := z.raw.End }

/-- The loop of readRawOrRCDATA (token.go). -/
def readRawOrRCDATALoop : Nat → Tokenizer → Except Fatal Tokenizer
  | 0, _ => .error .outOfFuel
  | fuel+1, z =>
    let p := readByte z
    let z := p.1
    if z.err ≠ none then .ok z
    else if p.2 ≠ Char.ofNat 60 then readRawOrRCDATALoop fuel z
    else
      let p2 := readByte z
      let z := p2.1
      if z.err ≠ none then .ok z
      else if p2.2 ≠ Char.ofNat 47 then
        readRawOrRCDATALoop fuel { z with raw.End := z.raw.End - 1 }
      else
        match readRawEndTag z with
        | (z, b) =>
          if b ∨ z.err ≠ none then .ok z
          else readRawOrRCDATALoop fuel z

/-- readRawOrRCDATA reads until the next "</foo>" where "foo" is z.rawTag
(token.go). The initial check compares `z.Token().Type`, which is just the
stored `z.tt`, against SelfClosingTagToken. -/
def readRawOrRCDATA (fuel : Nat) (z : Tokenizer) : Except Fatal Tokenizer :=
  if z.tt = TokenType.SelfClosingTagToken then
    .ok { z with data.End := z.raw.End, rawTag := ("") }
  else if z.rawTag = ("script") then
    match readScript (innerFuel z) z with
    | .error e => .error e
    | .ok z => .ok { z with textIsRaw := true, rawTag := ("") }
  else
    match readRawOrRCDATALoop fuel z with
    | .error e => .error e
    | .ok z =>
      .ok { z with data.End := z.raw.End,
                   textIsRaw := decide (z.rawTag ≠ ("textarea") ∧ z.rawTag ≠ ("title")),
                   rawTag := ("") }

/-- The comment-scanning loop of readHTMLComment with its local dashCount
(token.go); the counter starts at 2 for the already-consumed opener. -/
def readHTMLCommentLoop : Nat → Nat → Tokenizer → Except Fatal Tokenizer
  | 0, _, _ => .error .outOfFuel
  | fuel+1, dashCount, z =>
    let p := readByte z
    let z := p.1
    if z.err ≠ none then
      let dc := if dashCount > 2 then 2 else dashCount
      .ok { z with data.End := z.raw.End - dc }
    else if p.2 = Char.ofNat 45 then readHTMLCommentLoop fuel (dashCount + 1) z
    else if p.2 = Char.ofNat 62 then
      if dashCount ≥ 2 then .ok { z with data.End := z.raw.End - 3 }
      else readHTMLCommentLoop fuel 0 z
    else if p.2 = Char.ofNat 33 then
      if dashCount ≥ 2 then
        let p2 := readByte z
        let z := p2.1
        if z.err ≠ none then .ok { z with data.End := z.raw.End }
        else if p2.2 = Char.ofNat 62 then .ok { z with data.End := z.raw.End - 4 }
        else readHTMLCommentLoop fuel 0 z
      else readHTMLCommentLoop fuel 0 z
    else readHTMLCommentLoop fuel 0 z

/-- readHTMLComment reads a comment token after "<!--" (token.go). The Go
`defer` clamps an out-of-order data span for comments like "<!-->". -/
def readHTMLComment (fuel : Nat) (z : Tokenizer) : Except Fatal Tokenizer :=
  let z := { z with data.Start := z.raw.End }
  match readHTMLCommentLoop fuel 2 z with
  | .error e => .error e
  | .ok z =>
    if z.data.End < z.data.Start then .ok { z with data.End := z.data.Start }
    else .ok z

/-- readUntilCloseAngle reads until the next close-angle byte (token.go). -/
def readUntilCloseAngleLoop : Nat → Tokenizer → Except Fatal Tokenizer
  | 0, _ => .error .outOfFuel
  | fuel+1, z =>
    let p := readByte z
    let z := p.1
    if z.err ≠ none then .ok { z with data.End := z.raw.End }
    else if p.2 = Char.ofNat 62 then .ok { z with data.End := z.raw.End - 1 }
    else readUntilCloseAngleLoop fuel z

def readUntilCloseAngle (fuel : Nat) (z : Tokenizer) : Except Fatal Tokenizer :=
  readUntilCloseAngleLoop fuel { z with data.Start := z.raw.End }

/-- The index loop of readDoctype matching "DOCTYPE" case-insensitively;
on a mismatch the read position snaps back to data.Start (token.go). -/
def readDoctypeLoop : List Char → Tokenizer → Tokenizer × Bool × Bool
  | [], z => (z, true, false)
  | t :: ts, z =>
    let p := readByte z
    let z := p.1
    if z.err ≠ none then ({ z with data.End := z.raw.End }, false, true)
    else if p.2 ≠ t ∧ p.2.toNat ≠ t.toNat + 32 then
      ({ z with raw.End := z.data.Start }, false, false)
    else readDoctypeLoop ts z

/-- readDoctype attempts a doctype declaration after "<!" (token.go); the
boolean is the Go return value. -/
def readDoctype (fuel : Nat) (z : Tokenizer) : Except Fatal (Tokenizer × Bool) :=
  match readDoctypeLoop ("DOCTYPE").toList z with
  | (z, false, _) => .ok (z, false)
  | (z, true, _) =>
    match skipWhiteSpace (innerFuel z) z with
    | .error e => .error e
    | .ok z =>
      if z.err ≠ none then
        .ok ({ z with data.Start := z.raw.End, data.End := z.raw.End }, true)
      else
        match readUntilCloseAngle fuel z with
        | .error e => .error e
        | .ok z => .ok (z, true)

/-- The bracket-counting loop of readCDATA (token.go). -/
def readCDATALoop : Nat → Nat → Tokenizer → Except Fatal Tokenizer
  | 0, _, _ => .error .outOfFuel
  | fuel+1, brackets, z =>
    let p := readByte z
    let z := p.1
    if z.err ≠ none then .ok { z with data.End := z.raw.End }
    else if p.2 = Char.ofNat 93 then readCDATALoop fuel (brackets + 1) z
    else if p.2 = Char.ofNat 62 then
      if brackets ≥ 2 then .ok { z with data.End := z.raw.End - 3 }
      else readCDATALoop fuel 0 z
    else readCDATALoop fuel 0 z

/-- The index loop of readCDATA matching "[CDATA[" exactly (token.go). -/
def readCDATAOpenLoop : List Char → Tokenizer → Tokenizer × Bool
  | [], z => (z, true)
  | t :: ts, z =>
    let p := readByte z
    let z := p.1
    if z.err ≠ none then ({ z with data.End := z.raw.End }, false)
    else if p.2 ≠ t then ({ z with raw.End := z.data.Start }, false)
    else readCDATAOpenLoop ts z

/-- readCDATA attempts a CDATA section after "<!" (token.go). The err-path
of the opener loop returns false in Go but with data.End already set; both
are mirrored. -/
def readCDATA (fuel : Nat) (z : Tokenizer) : Except Fatal (Tokenizer × Bool) :=
  match readCDATAOpenLoop ("[CDATA[").toList z with
  | (z, false) => .ok (z, false)
  | (z, true) =>
    let z := { z with data.Start := z.raw.End }
    match readCDATALoop fuel 0 z with
    | .error e => .error e
    | .ok z => .ok (z, true)

/-- readMarkupDeclaration reads the token after "<!" (token.go). -/
def readMarkupDeclaration (fuel : Nat) (z : Tokenizer) :
    Except Fatal (Tokenizer × TokenType) :=
  let z := { z with data.Start := z.raw.End }
  let p0 := readByte z
  let z0 := p0.1
  if z0.err ≠ none then .ok ({ z0 with data.End := z0.raw.End }, TokenType.CommentToken)
  else
    let p1 := readByte z0
    let z1 := p1.1
    if z1.err ≠ none then .ok ({ z1 with data.End := z1.raw.End }, TokenType.CommentToken)
    else if p0.2 = Char.ofNat 45 ∧ p1.2 = Char.ofNat 45 then
      match readHTMLComment fuel z1 with
      | .error e => .error e
      | .ok z => .ok (z, TokenType.CommentToken)
    else
      let z := { z1 with raw.End := z1.raw.End - 2 }
      match readDoctype fuel z with
      | .error e => .error e
      | .ok (z, true) => .ok (z, TokenType.DoctypeToken)
      | .ok (z, false) =>
        if z.allowCDATA then
          match readCDATA fuel z with
          | .error e => .error e
          | .ok (z, true) => .ok ({ z with convertNUL := true }, TokenType.TextToken)
          | .ok (z, false) =>
            match readUntilCloseAngle fuel z with
            | .error e => .error e
            | .ok z => .ok (z, TokenType.CommentToken)
        else
          match readUntilCloseAngle fuel z with
          | .error e => .error e
          | .ok z => .ok (z, TokenType.CommentToken)

/-- The byte range `z.buf[a:b]`. -/
def slice (z : Tokenizer) (a b : Nat) : List Char :=
  (z.buf.take b).drop a

/-- startTagIn: whether the tag name in `z.buf[z.data.Start:z.data.End]`
matches any element of `ss` byte for byte (token.go). -/
def startTagIn (z : Tokenizer) (ss : List String) : Bool :=
  ss.any fun s =>
    z.data.End - z.data.Start = s.length ∧ slice z z.data.Start z.data.End = s.toList

/-- hasTag: Go compares each stored attribute key with `s` only up to the
shorter of the two lengths, returning true on the first such match
(token.go); iteration order (from the end) does not affect the result. -/
def commonPfxEq : List Char → List Char → Bool
  | [], _ => true
  | _, [] => true
  | a :: as_, b :: bs => a = b && commonPfxEq as_ bs

def hasTag (z : Tokenizer) (s : String) : Bool :=
  z.attr.any fun x => commonPfxEq (slice z x.1.Start x.1.End) s.toList

/-- First index at which `pat` occurs in `l`, Go's strings.Index. -/
def findSub : List Char → List Char → Option Nat
  | _, [] => some 0
  | [], _ :: _ => none
  | c :: cs, pat =>
    if pat.isPrefixOf (c :: cs) then some 0
    else (findSub cs pat).map (· + 1)

/-- Go strings.TrimSpace on bytes. -/
def trimSpace (l : List Char) : List Char :=
  ((l.dropWhile isSpace).reverse.dropWhile isSpace).reverse

/-- readTagName sets z.data to the tag name; the first letter has already
been consumed (token.go). -/
def readTagNameLoop : Nat → Tokenizer → Except Fatal Tokenizer
  | 0, _ => .error .outOfFuel
  | fuel+1, z =>
    let p := readByte z
    let z := p.1
    if z.err ≠ none then .ok { z with data.End := z.raw.End }
    else if p.2 = Char.ofNat 32 ∨ p.2 = nlChar ∨ p.2 = crChar ∨ p.2 = tabChar ∨
        p.2 = ffChar then
      .ok { z with data.End := z.raw.End - 1 }
    else if p.2 = Char.ofNat 47 ∨ p.2 = Char.ofNat 62 then
      .ok { z with raw.End := z.raw.End - 1, data.End := z.raw.End - 1 }
    else readTagNameLoop fuel z

def readTagName (fuel : Nat) (z : Tokenizer) : Except Fatal Tokenizer :=
  readTagNameLoop fuel { z with data.Start := z.raw.End - 1 }

/-- readTagAttrExpression (token.go). A second slash right after the opening
slash is the Go panic "Block comments (//) are not allowed inside of
expressions" - note the Go message misnames the line-comment opener. -/
def readTagAttrExpressionLoop : Nat → Tokenizer → Except Fatal Tokenizer
  | 0, _ => .error .outOfFuel
  | fuel+1, z =>
    let p := readByte z
    let z := p.1
    if z.err ≠ none then .ok z
    else if p.2 = Char.ofNat 47 ∨ p.2 = dquote ∨ p.2 = squote ∨ p.2 = btick then
      let end_ := z.data.End
      if p.2 = Char.ofNat 47 then
        let p2 := readByte z
        let z := p2.1
        if p2.2 = Char.ofNat 47 then .error .blockCommentInExpression
        else
          match readCommentOrRegExp (innerFuel z) [rbrace] z with
          | .error e => .error e
          | .ok z =>
            let lastChar := z.buf.getD (z.data.End - 1) nullChar
            let z := if lastChar = rbrace then { z with data.End := z.data.End - 1 } else z
            readTagAttrExpressionLoop fuel { z with raw.End := z.data.End, data.End := end_ }
      else
        match readString (innerFuel z) p.2 z with
        | .error e => .error e
        | .ok z =>
          readTagAttrExpressionLoop fuel { z with raw.End := z.data.End, data.End := end_ }
    else if p.2 = lbrace then
      readTagAttrExpressionLoop fuel
        { z with attrExpressionStack := z.attrExpressionStack + 1 }
    else if p.2 = rbrace then
      let z := { z with attrExpressionStack := z.attrExpressionStack - 1 }
      if z.attrExpressionStack = 0 then .ok z
      else readTagAttrExpressionLoop fuel z
    else readTagAttrExpressionLoop fuel z

def readTagAttrExpression (fuel : Nat) (z : Tokenizer) : Except Fatal Tokenizer :=
  if z.err ≠ none then .ok z else readTagAttrExpressionLoop fuel z

/-- readTagAttrKey sets z.pendingAttrKey (token.go). -/
def readTagAttrKeyLoop : Nat → Tokenizer → Except Fatal Tokenizer
  | 0, _ => .error .outOfFuel
  | fuel+1, z =>
    let p := readByte z
    let z := p.1
    if z.err ≠ none then .ok { z with pendingAttrKey.End := z.raw.End }
    else if p.2 = lbrace then
      let z := { z with pendingAttrKey.Start := z.raw.End,
                        pendingAttrType := AttributeType.ShorthandAttribute,
                        attrExpressionStack := 1 }
      match readTagAttrExpression (innerFuel z) z with
      | .error e => .error e
      | .ok z =>
        let pa := z.buf.drop z.pendingAttrKey.Start
        let inc : Nat :=
          match findSub pa [Char.ofNat 46, Char.ofNat 46, Char.ofNat 46] with
          | some i => i + 3
          | none => 2
        let z :=
          if pa.length > 3 ∧ (trimSpace pa).take 3 = [Char.ofNat 46, Char.ofNat 46, Char.ofNat 46] then
            { z with pendingAttrKey.Start := z.pendingAttrKey.Start + inc,
                     pendingAttrType := AttributeType.SpreadAttribute }
          else z
        readTagAttrKeyLoop fuel z
    else if p.2 = Char.ofNat 32 ∨ p.2 = nlChar ∨ p.2 = crChar ∨ p.2 = tabChar ∨
        p.2 = ffChar ∨ p.2 = Char.ofNat 47 then
      if z.pendingAttrType = AttributeType.SpreadAttribute ∨
          z.pendingAttrType = AttributeType.ShorthandAttribute then
        .ok { z with pendingAttrKey.End := z.raw.End - 2 }
      else .ok { z with pendingAttrKey.End := z.raw.End - 1 }
    else if p.2 = Char.ofNat 61 ∨ p.2 = Char.ofNat 62 then
      let z := { z with raw.End := z.raw.End - 1 }
      if z.pendingAttrType = AttributeType.SpreadAttribute ∨
          z.pendingAttrType = AttributeType.ShorthandAttribute then
        .ok { z with pendingAttrKey.End := z.raw.End - 1 }
      else .ok { z with pendingAttrKey.End := z.raw.End }
    else readTagAttrKeyLoop fuel z

def readTagAttrKey (fuel : Nat) (z : Tokenizer) : Except Fatal Tokenizer :=
  readTagAttrKeyLoop fuel
    { z with pendingAttrKey.Start := z.raw.End,
             pendingAttrType := AttributeType.QuotedAttribute }

/-- The quoted / template-literal value loop of readTagAttrVal (token.go). -/
def readQuotedValLoop : Nat → Char → Tokenizer → Except Fatal Tokenizer
  | 0, _, _ => .error .outOfFuel
  | fuel+1, quote, z =>
    let p := readByte z
    let z := p.1
    if z.err ≠ none then .ok { z with pendingAttrVal.End := z.raw.End }
    else if p.2 = quote then .ok { z with pendingAttrVal.End := z.raw.End - 1 }
    else readQuotedValLoop fuel quote z

/-- The unquoted value loop of readTagAttrVal (token.go). -/
def readBareValLoop : Nat → Tokenizer → Except Fatal Tokenizer
  | 0, _ => .error .outOfFuel
  | fuel+1, z =>
    let p := readByte z
    let z := p.1
    if z.err ≠ none then .ok { z with pendingAttrVal.End := z.raw.End }
    else if p.2 = Char.ofNat 32 ∨ p.2 = nlChar ∨ p.2 = crChar ∨ p.2 = tabChar ∨
        p.2 = ffChar then
      .ok { z with pendingAttrVal.End := z.raw.End - 1 }
    else if p.2 = Char.ofNat 62 then
      .ok { z with raw.End := z.raw.End - 1, pendingAttrVal.End := z.raw.End - 1 }
    else readBareValLoop fuel z

/-- readTagAttrVal sets z.pendingAttrVal (token.go). -/
def readTagAttrVal (fuel : Nat) (z : Tokenizer) : Except Fatal Tokenizer :=
  let z := { z with pendingAttrVal.Start := z.raw.End, pendingAttrVal.End := z.raw.End }
  match skipWhiteSpace (innerFuel z) z with
  | .error e => .error e
  | .ok z =>
    if z.err ≠ none then .ok z
    else
      let p := readByte z
      let z := p.1
      if z.err ≠ none then .ok z
      else if p.2 ≠ Char.ofNat 61 then
        let z := if z.pendingAttrType = AttributeType.QuotedAttribute then
            { z with pendingAttrType := AttributeType.EmptyAttribute } else z
        .ok { z with raw.End := z.raw.End - 1 }
      else
        match skipWhiteSpace (innerFuel z) z with
        | .error e => .error e
        | .ok z =>
          if z.err ≠ none then .ok z
          else
            let q := readByte z
            let z := q.1
            if z.err ≠ none then .ok z
            else if q.2 = Char.ofNat 62 then .ok { z with raw.End := z.raw.End - 1 }
            else if q.2 = squote ∨ q.2 = dquote then
              readQuotedValLoop fuel q.2
                { z with pendingAttrVal.Start := z.raw.End,
                         pendingAttrType := AttributeType.QuotedAttribute }
            else if q.2 = btick then
              readQuotedValLoop fuel q.2
                { z with pendingAttrVal.Start := z.raw.End,
                         pendingAttrType := AttributeType.TemplateLiteralAttribute }
            else if q.2 = lbrace then
              let z := { z with pendingAttrVal.Start := z.raw.End,
                                pendingAttrType := AttributeType.ExpressionAttribute,
                                attrExpressionStack := 1 }
              match readTagAttrExpression (innerFuel z) z with
              | .error e => .error e
              | .ok z => .ok { z with pendingAttrVal.End := z.raw.End - 1 }
            else
              readBareValLoop fuel
                { z with pendingAttrVal.Start := z.raw.End - 1,
                         pendingAttrType := AttributeType.QuotedAttribute }

/-- The attribute loop of readTag (token.go). -/
def readTagLoop : Nat → Bool → Tokenizer → Except Fatal Tokenizer
  | 0, _, _ => .error .outOfFuel
  | fuel+1, saveAttr, z =>
    let p := readByte z
    let z := p.1
    if z.err ≠ none ∨ p.2 = Char.ofNat 62 then .ok z
    else
      let z := { z with raw.End := z.raw.End - 1 }
      match readTagAttrKey (innerFuel z) z with
      | .error e => .error e
      | .ok z =>
        match readTagAttrVal (innerFuel z) z with
        | .error e => .error e
        | .ok z =>
          let z :=
            if saveAttr ∧ z.pendingAttrKey.Start ≠ z.pendingAttrKey.End then
              { z with attr := z.attr ++ [(z.pendingAttrKey, z.pendingAttrVal)],
                       attrTypes := z.attrTypes ++ [z.pendingAttrType] }
            else z
          match skipWhiteSpace (innerFuel z) z with
          | .error e => .error e
          | .ok z =>
            if z.err ≠ none then .ok z
            else readTagLoop fuel saveAttr z

/-- readTag reads the next tag token and its attributes (token.go). -/
def readTag (fuel : Nat) (saveAttr : Bool) (z : Tokenizer) : Except Fatal Tokenizer :=
  let z := { z with pendingAttrType := AttributeType.QuotedAttribute,
                    attr := [], attrTypes := [],
                    attrExpressionStack := 0, nAttrReturned := 0 }
  match readTagName (innerFuel z) z with
  | .error e => .error e
  | .ok z =>
    match skipWhiteSpace (innerFuel z) z with
    | .error e => .error e
    | .ok z =>
      if z.err ≠ none then .ok z
      else readTagLoop fuel saveAttr z

/-- The HTML void element list of readStartTag (token.go). -/
def voidElements : List String :=
  [("area"), ("base"), ("br"), ("col"), ("command"), ("embed"), ("hr"), ("img"),
   ("input"), ("keygen"), ("link"), ("meta"), ("param"), ("source"), ("track"), ("wbr")]

/-- The raw-tag detection switch of readStartTag (token.go): a handful of
verbatim-content element names selected on the first byte of the tag name,
with the attribute-driven data-astro-raw fallback. -/
def readStartTagRaw (z : Tokenizer) : Bool :=
  let c := z.buf.getD z.data.Start nullChar
  let raw :=
    if c = 'i' then startTagIn z [("iframe")]
    else if c = 'n' then startTagIn z [("noembed"), ("noframes")]
    else if c = 'p' then startTagIn z [("plaintext")]
    else if c = 's' then startTagIn z [("script"), ("style")]
    else if c = 't' then startTagIn z [("textarea"), ("title")]
    else if c = 'x' then startTagIn z [("xmp")]
    else false
  if ¬raw then hasTag z ("data-astro-raw") else raw

/-- The classification tail of readStartTag (token.go): self-closing when
the tag name is an HTML void element, or when no error is pending and the
byte before the closing angle bracket is a slash. -/
def readStartTagClassify (z : Tokenizer) : Tokenizer × TokenType :=
  if startTagIn z voidElements then (z, TokenType.SelfClosingTagToken)
  else if z.err = none ∧ z.buf.getD (z.raw.End - 2) nullChar = Char.ofNat 47 then
    (z, TokenType.SelfClosingTagToken)
  else (z, TokenType.StartTagToken)

/-- The tail of readStartTag after its readTag call (token.go): store the
raw tag name when flagged, then classify. -/
def readStartTagFinish (z : Tokenizer) : Tokenizer × TokenType :=
  readStartTagClassify <| if readStartTagRaw z then
    { z with rawTag := String.mk (slice z z.data.Start z.data.End) } else z

/-- readStartTag reads the next start tag token after "<a" (token.go),
returning the classified token type. -/
def readStartTag (fuel : Nat) (z : Tokenizer) : Except Fatal (Tokenizer × TokenType) :=
  match readTag fuel true z with
  | .error e => .error e
  | .ok z => .ok (readStartTagFinish z)

/-- The whitespace-bounded scan of readUnclosedTag when no closing angle
exists ahead (token.go); the Go index loop is a counter recursion. -/
def readUnclosedTagScan : Nat → Tokenizer → Tokenizer
  | 0, z => z
  | n+1, z =>
    let p := readByte z
    let z := p.1
    if z.err ≠ none then { z with data.End := z.raw.End }
    else if p.2 = Char.ofNat 32 ∨ p.2 = nlChar ∨ p.2 = crChar ∨ p.2 = tabChar ∨
        p.2 = ffChar then
      { z with data.End := z.raw.End - 1 }
    else readUnclosedTagScan n z

/-- readUnclosedTag implicitly closes an unclosed tag so an IDE-style
partial document cannot make the tokenizer scan unboundedly (token.go). -/
def readUnclosedTag (z : Tokenizer) : Tokenizer :=
  let buf0 := z.buf.drop z.data.Start
  let buf1 :=
    if z.fm = FrontmatterState.FrontmatterOpen then
      match findSub buf0 [Char.ofNat 45, Char.ofNat 45, Char.ofNat 45] with
      | some cl => buf0.take cl
      | none => buf0
    else buf0
  match findSub buf1 [Char.ofNat 62] with
  | some _ => z
  | none =>
    let z := { z with data.Start := z.raw.End - 1 }
    readUnclosedTagScan buf1.length z

/-- The loop that drains the rest of the input for a plaintext element
(token.go, inside Next). -/
def readToEOF : Nat → Tokenizer → Except Fatal Tokenizer
  | 0, _ => .error .outOfFuel
  | fuel+1, z =>
    if z.err = none then readToEOF fuel (readByte z).1
    else .ok z

/-- isAtExpressionBoundary (token.go). -/
def isAtExpressionBoundary (z : Tokenizer) : Bool :=
  if z.expressionStack = [] then false
  else
    match z.prevTokenType with
    | TokenType.StartTagToken | TokenType.EndTagToken
    | TokenType.SelfClosingTagToken | TokenType.EndExpressionToken => false
    | _ => true

/-- The labelled loops of Next (token.go): `loop`, `frontmatter_loop`,
`raw_with_expression_loop` and `expression_loop`. -/
inductive Label where
  | mainLoop
  | frontmatterLoop
  | rawWithExprLoop
  | expressionLoop
  deriving DecidableEq, Repr

/-- Outcome of one iteration of a labelled loop of Next: emit the current
token, keep looping (a Go `continue` or `goto`), or abort on a panic. -/
inductive StepRes where
  | tok (z : Tokenizer)
  | jump (l : Label) (z : Tokenizer)
  | fatal (f : Fatal)
  deriving DecidableEq, Repr

/-- Break epilogue of Next's `loop` (token.go lines after `break loop`):
flush accumulated text, else report the stored error. -/
def mainBreak (z : Tokenizer) : Tokenizer :=
  if z.raw.Start < z.raw.End then
    { z with openBraceIsExpressionStart := false, data.End := z.raw.End,
             tt := TokenType.TextToken }
  else { z with tt := TokenType.ErrorToken }

/-- Break epilogue of `expression_loop` (token.go lines at its end). -/
def exprBreak (z : Tokenizer) : Tokenizer :=
  if z.raw.Start < z.raw.End then
    { z with data.End := z.raw.End, tt := TokenType.TextToken }
  else { z with tt := TokenType.ErrorToken }

/-- Break epilogue of `raw_with_expression_loop` (token.go): set the data
span and raw-text flags, then fall through into `expression_loop`. -/
def rawBreak (z : Tokenizer) : Tokenizer :=
  { z with data.End := z.raw.End,
           textIsRaw := decide (z.rawTag ≠ ("textarea") ∧ z.rawTag ≠ ("title")),
           rawTag := ("") }

/-- Top of an expression counter stack; the Go slice's last element is the
list head here. -/
def bumpTop (d : Int) : List Int → List Int
  | [] => []
  | t :: rest => (t + d) :: rest

/-- One iteration of Next's `loop` (token.go). -/
def mainStep (z : Tokenizer) : StepRes :=
  let p := readByte z
  let z := p.1
  if z.err ≠ none then .tok (mainBreak z)
  else
    let c := p.2
    if z.m = MarkdownState.MarkdownOpen ∧ (c = squote ∨ c = dquote ∨ c = btick) then
      match readString (innerFuel z) c z with
      | .error e => .fatal e
      | .ok z => .tok { z with tt := TokenType.TextToken, data.End := z.raw.End }
    else if c = lbrace ∨ c = rbrace then
      if z.raw.Start < z.raw.End - 1 then
        .tok { z with raw.End := z.raw.End - 1, data.End := z.raw.End - 1,
                      tt := TokenType.TextToken }
      else .jump Label.expressionLoop { z with raw.End := z.raw.End - 1 }
    else if c = Char.ofNat 45 ∧ z.fm ≠ FrontmatterState.FrontmatterClosed then
      .jump Label.frontmatterLoop { z with raw.End := z.raw.End - 1 }
    else if c ≠ Char.ofNat 60 then .jump Label.mainLoop z
    else if z.fm = FrontmatterState.FrontmatterOpen then
      .jump Label.frontmatterLoop { z with raw.End := z.raw.End - 1 }
    else
      let p2 := readByte z
      let z := p2.1
      if z.err ≠ none then .tok (mainBreak z)
      else
        let c := p2.2
        if c = Char.ofNat 62 then
          -- empty <> fragment start tag
          if z.raw.Start < z.raw.End - 2 then
            .tok { z with raw.End := z.raw.End - 2, data.End := z.raw.End - 2,
                          tt := TokenType.TextToken }
          else .tok { z with tt := TokenType.StartTagToken }
        else
          let z := { z with openBraceIsExpressionStart := true }
          if isAlpha c ∨ c = Char.ofNat 47 ∨ c = Char.ofNat 33 ∨ c = Char.ofNat 63 then
            -- a tag, end tag, comment or doctype follows
            if z.raw.Start < z.raw.End - 2 then
              .tok { z with raw.End := z.raw.End - 2, data.End := z.raw.End - 2,
                            tt := TokenType.TextToken }
            else
              let z := readUnclosedTag z
              if z.err ≠ none then .tok (mainBreak z)
              else if isAlpha c then
                -- StartTagToken
                let z := if z.fm = FrontmatterState.FrontmatterInitial then
                    { z with fm := FrontmatterState.FrontmatterClosed } else z
                match readStartTag (innerFuel z) z with
                | .error e => .fatal e
                | .ok (z, tt) =>
                  let z := { z with tt := tt }
                  let z :=
                    if slice z z.data.Start z.data.End = ("Markdown").toList then
                      { z with m := MarkdownState.MarkdownOpen }
                    else if z.m = MarkdownState.MarkdownOpen then
                      { z with m := MarkdownState.MarkdownInnerTag }
                    else z
                  .tok z
              else if c = Char.ofNat 47 then
                -- EndTagToken
                let z := if z.fm = FrontmatterState.FrontmatterInitial then
                    { z with fm := FrontmatterState.FrontmatterClosed } else z
                let p3 := readByte z
                let z := p3.1
                if z.err ≠ none then .tok (mainBreak z)
                else if p3.2 = Char.ofNat 62 then .tok { z with tt := TokenType.EndTagToken }
                else if isAlpha p3.2 then
                  match readTag (innerFuel z) false z with
                  | .error e => .fatal e
                  | .ok z =>
                    let z :=
                      if slice z z.data.Start z.data.End = ("Markdown").toList then
                        { z with m := MarkdownState.MarkdownClosed }
                      else if z.m = MarkdownState.MarkdownInnerTag then
                        { z with m := MarkdownState.MarkdownOpen }
                      else z
                    if z.err ≠ none then .tok { z with tt := TokenType.ErrorToken }
                    else .tok { z with tt := TokenType.EndTagToken }
                else
                  .tok { z with raw.End := z.raw.End - 1, tt := TokenType.CommentToken }
              else
                -- CommentToken ('!' or '?')
                if c = Char.ofNat 33 then
                  match readMarkupDeclaration (innerFuel z) z with
                  | .error e => .fatal e
                  | .ok (z, tt) => .tok { z with tt := tt }
                else
                  let z := { z with raw.End := z.raw.End - 1 }
                  match readUntilCloseAngle (innerFuel z) z with
                  | .error e => .fatal e
                  | .ok z => .tok { z with tt := TokenType.CommentToken }
          else
            -- Go's default case: a "< " style byte after '<'
            let raw := Raw z
            if raw.length > 1 ∧ raw.headD nullChar = Char.ofNat 60 then
              .fatal (.fragmentWithAttrs ((Buffered z).takeWhile (· ≠ Char.ofNat 62)))
            else .jump Label.mainLoop { z with raw.End := z.raw.End - 1 }

/-- One iteration of Next's `frontmatter_loop` (token.go). -/
def fmStep (z : Tokenizer) : StepRes :=
  if z.fm = FrontmatterState.FrontmatterClosed then .jump Label.mainLoop z
  else
    let p := readByte z
    let z := p.1
    if z.err ≠ none then
      -- break frontmatter_loop; fall through into raw_with_expression_loop
      .jump Label.rawWithExprLoop { z with data.End := z.raw.End }
    else
      let c := p.2
      let z := if c = Char.ofNat 45 then { z with dashCount := z.dashCount + 1 } else z
      if z.dashCount = 3 ∧ z.fm = FrontmatterState.FrontmatterInitial then
        .tok { z with fm := FrontmatterState.FrontmatterOpen, dashCount := 0,
                      data.End := z.raw.End, tt := TokenType.FrontmatterFenceToken,
                      openBraceIsExpressionStart := false }
      else if z.dashCount = 3 ∧ z.fm = FrontmatterState.FrontmatterOpen then
        if z.raw.Start < z.raw.End - 3 then
          .tok { z with data.End := z.raw.End - 3,
                        openBraceIsExpressionStart := false, tt := TokenType.TextToken }
        else
          .tok { z with fm := FrontmatterState.FrontmatterClosed, dashCount := 0,
                        data.End := z.raw.End, tt := TokenType.FrontmatterFenceToken,
                        openBraceIsExpressionStart := true }
      else if c = Char.ofNat 45 then .jump Label.frontmatterLoop z
      else if c = Char.ofNat 47 then
        match readCommentOrRegExp (innerFuel z) [] z with
        | .error e => .fatal e
        | .ok z => .tok { z with tt := TokenType.TextToken, data.End := z.raw.End }
      else
        let s := z.buf.getD z.raw.Start nullChar
        if s = Char.ofNat 60 ∨ s = lbrace ∨ s = rbrace ∨
            c = Char.ofNat 60 ∨ c = lbrace ∨ c = rbrace then
          let z := { z with dashCount := 0 }
          if z.fm = FrontmatterState.FrontmatterOpen ∧ (s = Char.ofNat 60 ∨ c = Char.ofNat 60) then
            -- elements are not supported inside frontmatter
            .jump Label.frontmatterLoop z
          else .jump Label.mainLoop { z with raw.End := z.raw.End - 1 }
        else if c = squote ∨ c = dquote ∨ c = btick then
          match readString (innerFuel z) c z with
          | .error e => .fatal e
          | .ok z => .tok { z with tt := TokenType.TextToken, data.End := z.raw.End }
        else .jump Label.frontmatterLoop { z with dashCount := 0 }

/-- One iteration of Next's `raw_with_expression_loop` (token.go). -/
def rawStep (z : Tokenizer) : StepRes :=
  let p := readByte z
  let z := p.1
  if z.err ≠ none then
    -- break raw_with_expression_loop; fall through into expression_loop
    .jump Label.expressionLoop (rawBreak z)
  else
    let c := p.2
    if c = squote ∨ c = dquote ∨ c = btick then
      match readString (innerFuel z) c z with
      | .error e => .fatal e
      | .ok z => .tok { z with tt := TokenType.TextToken, data.End := z.raw.End }
    else if c = lbrace ∨ c = rbrace then
      if z.raw.Start < z.raw.End - 1 then
        .tok { z with raw.End := z.raw.End - 1, data.End := z.raw.End - 1,
                      tt := TokenType.TextToken }
      else .jump Label.expressionLoop { z with raw.End := z.raw.End - 1 }
    else if c ≠ Char.ofNat 60 then .jump Label.rawWithExprLoop z
    else
      let p2 := readByte z
      let z := p2.1
      if z.err ≠ none then .jump Label.expressionLoop (rawBreak z)
      else if p2.2 ≠ Char.ofNat 47 then
        .jump Label.rawWithExprLoop { z with raw.End := z.raw.End - 1 }
      else
        match readRawEndTag z with
        | (z, b) =>
          if b ∨ z.err ≠ none then .jump Label.expressionLoop (rawBreak z)
          else .jump Label.rawWithExprLoop z

/-- One iteration of Next's `expression_loop` (token.go). -/
def exprStep (z : Tokenizer) : StepRes :=
  let p := readByte z
  let z := p.1
  if z.err ≠ none then .tok (exprBreak z)
  else
    let c := p.2
    if c = Char.ofNat 47 then
      match readCommentOrRegExp (innerFuel z) [] z with
      | .error e => .fatal e
      | .ok z => .tok { z with tt := TokenType.TextToken, data.End := z.raw.End }
    else if c = squote ∨ c = dquote ∨ c = btick then
      match readString (innerFuel z) c z with
      | .error e => .fatal e
      | .ok z => .tok { z with tt := TokenType.TextToken, data.End := z.raw.End }
    else if c = Char.ofNat 60 then
      let z := { z with raw.End := z.raw.End - 1, data.End := z.raw.End - 1 }
      if z.rawTag ≠ ("") then .jump Label.rawWithExprLoop z
      else .jump Label.mainLoop z
    else if c ≠ lbrace ∧ c ≠ rbrace then .jump Label.expressionLoop z
    else if z.raw.Start < z.raw.End - 1 then
      .tok { z with raw.End := z.raw.End - 1, data.End := z.raw.End - 1,
                    tt := TokenType.TextToken }
    else if c = lbrace then
      if z.openBraceIsExpressionStart then
        .tok { z with openBraceIsExpressionStart := false,
                      expressionStack := 0 :: z.expressionStack,
                      data.End := z.raw.End - 1, tt := TokenType.StartExpressionToken }
      else
        let z := { z with expressionStack := bumpTop 1 z.expressionStack }
        .tok { z with data.End := z.raw.End, tt := TokenType.TextToken }
    else
      -- c = rbrace
      if z.expressionStack = [] then
        .tok { z with data.End := z.raw.End, tt := TokenType.TextToken }
      else
        let z := { z with expressionStack := bumpTop (-1) z.expressionStack }
        if z.expressionStack.headD 0 = -1 then
          .tok { z with openBraceIsExpressionStart := true,
                        expressionStack := z.expressionStack.tail,
                        data.End := z.raw.End, tt := TokenType.EndExpressionToken }
        else .jump Label.expressionLoop z

/-- Dispatch one iteration of the loop named by the label. -/
def stepOf : Label → Tokenizer → StepRes
  | Label.mainLoop, z => mainStep z
  | Label.frontmatterLoop, z => fmStep z
  | Label.rawWithExprLoop, z => rawStep z
  | Label.expressionLoop, z => exprStep z

/-- The labelled loops of Next as a fuel-bounded driver over `stepOf`; one
Go loop iteration per fuel unit. -/
def nextGo : Nat → Label → Tokenizer → Except Fatal Tokenizer
  | 0, _, _ => .error .outOfFuel
  | fuel+1, lab, z =>
    match stepOf lab z with
    | .tok z => .ok z
    | .jump l z => nextGo fuel l z
    | .fatal f => .error f

/-- Fuel handed to the labelled loops of Next; ample, since no cycle of the
label graph advances the read position by less than one byte per four
iterations. -/
def nextFuel (z : Tokenizer) : Nat := 16 * z.buf.length + 128

/-- Code of Next between the rawTag dispatch and the labelled loops
(token.go): clear raw-text flags, then pick the region loop. -/
def nextCont (z : Tokenizer) : Except Fatal Tokenizer :=
  let z := { z with textIsRaw := false, convertNUL := false }
  if z.fm ≠ FrontmatterState.FrontmatterClosed then nextGo (nextFuel z) Label.frontmatterLoop z
  else if isAtExpressionBoundary z then nextGo (nextFuel z) Label.expressionLoop z
  else nextGo (nextFuel z) Label.mainLoop z

/-- After a raw-text read: emit the text if any was read, else continue
(token.go, inside Next). -/
def nextAfterRaw (z : Tokenizer) : Except Fatal Tokenizer :=
  if z.data.End > z.data.Start then
    .ok { z with tt := TokenType.TextToken, convertNUL := true }
  else nextCont z

/-- Next scans the next token and returns the updated tokenizer, whose `tt`
holds the new token's type (token.go). The Go expression `z.Token().Type`
at the frontmatter-open check reads the stored `z.tt`; the Token()
materialization has no effect relevant here. -/
def next (z : Tokenizer) : Except Fatal Tokenizer :=
  let z := { z with raw.Start := z.raw.End, data.Start := z.raw.End,
                    data.End := z.raw.End, prevTokenType := z.tt }
  let z :=
    if z.fm = FrontmatterState.FrontmatterOpen ∧
        z.tt ≠ TokenType.StartTagToken ∧ z.tt ≠ TokenType.EndTagToken then
      { z with openBraceIsExpressionStart := false }
    else z
  if z.rawTag ≠ ("") then
    if z.rawTag = ("plaintext") then
      match readToEOF (innerFuel z) z with
      | .error e => .error e
      | .ok z => nextAfterRaw { z with data.End := z.raw.End, textIsRaw := true }
    else if z.rawTag = ("title") ∨ z.rawTag = ("textarea") then
      nextGo (nextFuel z) Label.rawWithExprLoop z
    else
      match readRawOrRCDATA (innerFuel z) z with
      | .error e => .error e
      | .ok z => nextAfterRaw z
  else nextCont z

/-- NewTokenizer / NewTokenizerFragment with an empty context tag
(token.go): the zero-valued Go struct plus the explicit initializations. -/
def mkTokenizer (input : String) : Tokenizer where
  buf := input.toList
  tt := TokenType.ErrorToken
  prevTokenType := TokenType.ErrorToken
  fm := FrontmatterState.FrontmatterInitial
  m := MarkdownState.MarkdownInitial
  err := none
  raw := ⟨0, 0⟩
  data := ⟨0, 0⟩
  pendingAttrKey := ⟨0, 0⟩
  pendingAttrVal := ⟨0, 0⟩
  pendingAttrType := AttributeType.QuotedAttribute
  attr := []
  attrTypes := []
  attrExpressionStack := 0
  nAttrReturned := 0
  dashCount := 0
  expressionStack := []
  openBraceIsExpressionStart := true
  rawTag := ("")
  textIsRaw := false
  convertNUL := false
  allowCDATA := false

/-- The states after each of the first `n` calls to Next, cut short at a Go
panic or at fuel exhaustion. -/
def traceOf (z : Tokenizer) : Nat → List Tokenizer
  | 0 => []
  | n+1 =>
    match next z with
    | .ok z' => z' :: traceOf z' n
    | .error _ => []

/-- Token kinds with their raw spans for the first `n` tokens of an input,
stopping after the first ErrorToken. -/
def tokensOf (input : String) (n : Nat) : List (TokenType × List Char) :=
  let rec go : Nat → Tokenizer → List (TokenType × List Char)
    | 0, _ => []
    | n+1, z =>
      match next z with
      | .error _ => []
      | .ok z' =>
        if z'.tt = TokenType.ErrorToken then [(z'.tt, Raw z')]
        else (z'.tt, Raw z') :: go n z'
  go n (mkTokenizer input)

/-- Just the token kinds, stopping after the first ErrorToken. -/
def kindsOf (input : String) (n : Nat) : List TokenType :=
  (tokensOf input n).map (·.1)

end AstroTok

namespace AstroNode

/-- Nodes are addressed by stable identifiers; the Go `*Node` pointers become
`Option NodeId` (nil is `none`). -/
abbrev NodeId := Nat

/-- loc.Loc. -/
structure Loc where
  Start : Nat
  deriving DecidableEq, Repr, Inhabited

/-- A NodeType is the type of a Node (node.go). -/
inductive NodeType where
  | ErrorNode
  | TextNode
  | DocumentNode
  | ElementNode
  | CommentNode
  | DoctypeNode
  | RawNode
  | scopeMarkerNode
  | FrontmatterNode
  | ExpressionNode
  deriving DecidableEq, Repr, Inhabited

/-- An Attribute as stored on nodes (token.go struct Attribute); the
back-pointer `Tokenizer *Tokenizer` carries no data and is dropped. -/
structure Attribute where
  Namespace : String
  Key : String
  KeyLoc : Loc
  Val : String
  ValLoc : Loc
  Type' : AstroTok.AttributeType
  deriving DecidableEq, Repr, Inhabited

/-- A Node (node.go). `DataAtom` is the numeric atom code. The root-only
aggregate slices hold node ids; the HydrationDirectives set is a list of
names. Structural references are ids into a heap. -/
structure Node where
  Fragment : Bool := false
  CustomElement : Bool := false
  Component : Bool := false
  Expression : Bool := false
  Parent : Option NodeId := none
  FirstChild : Option NodeId := none
  LastChild : Option NodeId := none
  PrevSibling : Option NodeId := none
  NextSibling : Option NodeId := none
  Styles : List NodeId := []
  Scripts : List NodeId := []
  HydratedComponents : List NodeId := []
  ClientOnlyComponents : List NodeId := []
  HydrationDirectives : List String := []
  Type' : NodeType := NodeType.ErrorNode
  DataAtom : Nat := 0
  Data : String := ("")
  Namespace : String := ("")
  Attr : List Attribute := []
  Loc : List Loc := []
  deriving DecidableEq, Repr, Inhabited

/-- The store of allocated nodes. -/
abbrev Heap := NodeId → Node

/-- Update one node of the heap. -/
def upd (h : Heap) (i : NodeId) (f : Node → Node) : Heap :=
  fun j => if j = i then f (h j) else h j

/-- InsertBefore inserts newChild as a child of n immediately before
oldChild, or at the end when oldChild is nil (node.go). The Go panic for an
attached newChild is the `.error` case. -/
def InsertBefore (h : Heap) (n newChild : NodeId) (oldChild : Option NodeId) :
    Except String Heap :=
  if (h newChild).Parent ≠ none ∨ (h newChild).PrevSibling ≠ none ∨
      (h newChild).NextSibling ≠ none then
    .error ("html: InsertBefore called for an attached child Node")
  else
    let pn : Option NodeId × Option NodeId :=
      match oldChild with
      | some oc => ((h oc).PrevSibling, some oc)
      | none => ((h n).LastChild, none)
    let prev := pn.1
    let next := pn.2
    let h :=
      match prev with
      | some p => upd h p fun x => { x with NextSibling := some newChild }
      | none => upd h n fun x => { x with FirstChild := some newChild }
    let h :=
      match next with
      | some nx => upd h nx fun x => { x with PrevSibling := some newChild }
      | none => upd h n fun x => { x with LastChild := some newChild }
    .ok (upd h newChild fun x =>
      { x with Parent := some n, PrevSibling := prev, NextSibling := next })

/-- AppendChild adds node c as a child of n (node.go); panics if c is
already attached. -/
def AppendChild (h : Heap) (n c : NodeId) : Except String Heap :=
  if (h c).Parent ≠ none ∨ (h c).PrevSibling ≠ none ∨ (h c).NextSibling ≠ none then
    .error ("html: AppendChild called for an attached child Node")
  else
    let last := (h n).LastChild
    let h :=
      match last with
      | some l => upd h l fun x => { x with NextSibling := some c }
      | none => upd h n fun x => { x with FirstChild := some c }
    let h := upd h n fun x => { x with LastChild := some c }
    .ok (upd h c fun x => { x with Parent := some n, PrevSibling := last })

/-- RemoveChild removes child c of n and clears c's structural fields
(node.go); panics if c's parent is not n. Every field read happens against
the current heap, exactly as the Go statements execute in order. -/
def RemoveChild (h : Heap) (n c : NodeId) : Except String Heap :=
  if (h c).Parent ≠ some n then
    .error ("html: RemoveChild called for a non-child Node")
  else
    let h := if (h n).FirstChild = some c then
        upd h n fun x => { x with FirstChild := (h c).NextSibling } else h
    let h :=
      match (h c).NextSibling with
      | some ns => upd h ns fun x => { x with PrevSibling := (h c).PrevSibling }
      | none => h
    let h := if (h n).LastChild = some c then
        upd h n fun x => { x with LastChild := (h c).PrevSibling } else h
    let h :=
      match (h c).PrevSibling with
      | some ps => upd h ps fun x => { x with NextSibling := (h c).NextSibling }
      | none => h
    .ok (upd h c fun x =>
      { x with Parent := none, PrevSibling := none, NextSibling := none })

/-- clone returns a new node with the same type, data and attributes; it has
no parent, no siblings and no children (node.go). Only the fields listed in
the Go composite literal are copied; everything else is the zero value. -/
def clone (n : Node) : Node :=
  { Type' := n.Type'
    DataAtom := n.DataAtom
    Data := n.Data
    Attr := n.Attr
    CustomElement := n.CustomElement
    Component := n.Component
    Loc := n.Loc }

end AstroNode

instance {ε α : Type} [DecidableEq ε] [DecidableEq α] : DecidableEq (Except ε α)
  | .ok a, .ok b =>
    if h : a = b then .isTrue (by simp [h]) else .isFalse (by simp [h])
  | .error a, .error b =>
    if h : a = b then .isTrue (by simp [h]) else .isFalse (by simp [h])
  | .ok _, .error _ => .isFalse (by simp)
  | .error _, .ok _ => .isFalse (by simp)

namespace AstroTok

/-- The token type produced by a call to Next, when it returns at all. -/
def ttOf (r : Except Fatal Tokenizer) : Option TokenType :=
  match r with
  | .ok z => some z.tt
  | .error _ => none

end AstroTok

open AstroTok AstroNode

theorem readByte_noop (z : Tokenizer) (he : z.err = some TokError.eof)
    (hlen : z.buf.length ≤ z.raw.End) : readByte z = (z, nullChar) := by
  rw [readByte, if_pos hlen]
  congr 1
  cases z
  simp_all

theorem nextGo_tok (k : Nat) (lab : Label) (z w : Tokenizer)
    (h : stepOf lab z = .tok w) : nextGo (k+1) lab z = .ok w := by
  simp [nextGo, h]

theorem nextGo_jump (k : Nat) (lab : Label) (z w : Tokenizer) (l : Label)
    (h : stepOf lab z = .jump l w) : nextGo (k+1) lab z = nextGo k l w := by
  simp [nextGo, h]

theorem mainStep_err (z : Tokenizer) (he : z.err = some TokError.eof)
    (hlen : z.buf.length ≤ z.raw.End) (hse : z.raw.Start = z.raw.End) :
    stepOf Label.mainLoop z = .tok { z with tt := TokenType.ErrorToken } := by
  show mainStep z = _
  rw [mainStep]
  rw [readByte_noop z he hlen]
  simp only []
  rw [if_pos (by simp [he])]
  rw [mainBreak, if_neg (by omega)]

theorem exprStep_err (z : Tokenizer) (he : z.err = some TokError.eof)
    (hlen : z.buf.length ≤ z.raw.End) (hse : z.raw.Start = z.raw.End) :
    stepOf Label.expressionLoop z = .tok { z with tt := TokenType.ErrorToken } := by
  show exprStep z = _
  rw [exprStep]
  rw [readByte_noop z he hlen]
  simp only []
  rw [if_pos (by simp [he])]
  rw [exprBreak, if_neg (by omega)]

theorem rawStep_err (z : Tokenizer) (he : z.err = some TokError.eof)
    (hlen : z.buf.length ≤ z.raw.End) :
    stepOf Label.rawWithExprLoop z = .jump Label.expressionLoop (rawBreak z) := by
  show rawStep z = _
  rw [rawStep]
  rw [readByte_noop z he hlen]
  simp only []
  rw [if_pos (by simp [he])]

theorem fmStep_closed (z : Tokenizer) (hfm : z.fm = FrontmatterState.FrontmatterClosed) :
    stepOf Label.frontmatterLoop z = .jump Label.mainLoop z := by
  show fmStep z = _
  rw [fmStep, if_pos hfm]

theorem fmStep_err_open (z : Tokenizer) (he : z.err = some TokError.eof)
    (hlen : z.buf.length ≤ z.raw.End) (hfm : z.fm ≠ FrontmatterState.FrontmatterClosed) :
    stepOf Label.frontmatterLoop z = .jump Label.rawWithExprLoop { z with data.End := z.raw.End } := by
  show fmStep z = _
  rw [fmStep]
  rw [if_neg hfm]
  rw [readByte_noop z he hlen]
  simp only []
  rw [if_pos (by simp [he])]

/-- On a stored error with the read position at or past the end of input,
every labelled loop of Next lands on an ErrorToken without touching the raw
span, the buffer or the error. -/
theorem nextGo_err (k : Nat) (lab : Label) (z : Tokenizer)
    (he : z.err = some TokError.eof) (hlen : z.buf.length ≤ z.raw.End)
    (hse : z.raw.Start = z.raw.End) :
    ∃ z', nextGo (k+4) lab z = .ok z' ∧ z'.tt = TokenType.ErrorToken ∧
      z'.err = some TokError.eof ∧ z'.buf = z.buf ∧ z'.raw = z.raw ∧
      z'.expressionStack = z.expressionStack := by
  cases lab with
  | mainLoop =>
    exact ⟨_, nextGo_tok _ _ _ _ (mainStep_err z he hlen hse),
      by simp, by simp [he], by simp, by simp, by simp⟩
  | expressionLoop =>
    exact ⟨_, nextGo_tok _ _ _ _ (exprStep_err z he hlen hse),
      by simp, by simp [he], by simp, by simp, by simp⟩
  | rawWithExprLoop =>
    rw [nextGo_jump _ _ _ _ _ (rawStep_err z he hlen)]
    exact ⟨_, nextGo_tok _ _ _ _
        (exprStep_err (rawBreak z) (by simp [rawBreak, he]) (by simp [rawBreak, hlen])
          (by simp [rawBreak, hse])),
      by simp, by simp [rawBreak, he], by simp [rawBreak], by simp [rawBreak],
      by simp [rawBreak]⟩
  | frontmatterLoop =>
    by_cases hfm : z.fm = FrontmatterState.FrontmatterClosed
    · rw [nextGo_jump _ _ _ _ _ (fmStep_closed z hfm)]
      exact ⟨_, nextGo_tok _ _ _ _ (mainStep_err z he hlen hse),
        by simp, by simp [he], by simp, by simp, by simp⟩
    · rw [nextGo_jump _ _ _ _ _ (fmStep_err_open z he hlen hfm)]
      rw [nextGo_jump _ _ _ _ _ (rawStep_err _ (by simp [he]) (by simp [hlen]))]
      exact ⟨_, nextGo_tok _ _ _ _
          (exprStep_err (rawBreak { z with data.End := z.raw.End })
            (by simp [rawBreak, he]) (by simp [rawBreak, hlen]) (by simp [rawBreak, hse])),
        by simp, by simp [rawBreak, he], by simp [rawBreak], by simp [rawBreak],
        by simp [rawBreak]⟩

theorem readToEOF_err (k : Nat) (z : Tokenizer) (he : z.err = some TokError.eof) :
    readToEOF (k+1) z = .ok z := by
  rw [readToEOF, if_neg (by simp [he])]

theorem readScript_err (z : Tokenizer) (he : z.err = some TokError.eof)
    (hlen : z.buf.length ≤ z.raw.End) :
    readScript (innerFuel z) z = .ok { z with data.End := z.raw.End } := by
  rw [show innerFuel z = (8 * z.buf.length + 63) + 1 by unfold innerFuel; omega]
  rw [readScript]
  rw [show readScriptGo (8 * z.buf.length + 63 + 1) .scriptData z = .ok z by
    have hs : scriptStep .scriptData z = .done z := by
      show scriptStep .scriptData z = _
      rw [scriptStep]
      rw [readByte_noop z he hlen]
      simp only []
      rw [if_pos (by simp [he])]
    simp [readScriptGo, hs]]

theorem readRawOrRCDATA_err (z : Tokenizer) (he : z.err = some TokError.eof)
    (hlen : z.buf.length ≤ z.raw.End) :
    ∃ z', readRawOrRCDATA (innerFuel z) z = .ok z' ∧ z'.err = some TokError.eof ∧
      z'.buf = z.buf ∧ z'.raw = z.raw ∧ z'.data.End = z.raw.End ∧
      z'.data.Start = z.data.Start ∧ z'.rawTag = ("") ∧
      z'.expressionStack = z.expressionStack ∧ z'.fm = z.fm ∧ z'.tt = z.tt := by
  rw [readRawOrRCDATA]
  by_cases h1 : z.tt = TokenType.SelfClosingTagToken
  · rw [if_pos h1]
    exact ⟨_, rfl, by simp [he], by simp, by simp, by simp, by simp, by simp, by simp,
      by simp, by simp [h1]⟩
  · rw [if_neg h1]
    by_cases h2 : z.rawTag = ("script")
    · rw [if_pos h2, readScript_err z he hlen]
      exact ⟨_, rfl, by simp [he], by simp, by simp, by simp, by simp, by simp,
        by simp, by simp, by simp⟩
    · rw [if_neg h2]
      rw [show innerFuel z = (8 * z.buf.length + 63) + 1 by unfold innerFuel; omega]
      rw [show readRawOrRCDATALoop (8 * z.buf.length + 63 + 1) z = .ok z by
        rw [readRawOrRCDATALoop]
        rw [readByte_noop z he hlen]
        simp [he]]
      exact ⟨_, rfl, by simp [he], by simp, by simp, by simp, by simp, by simp,
        by simp, by simp, by simp⟩

theorem nextGoFull_err (lab : Label) (z : Tokenizer)
    (he : z.err = some TokError.eof) (hlen : z.buf.length ≤ z.raw.End)
    (hse : z.raw.Start = z.raw.End) :
    ∃ z', nextGo (nextFuel z) lab z = .ok z' ∧ z'.tt = TokenType.ErrorToken ∧
      z'.err = some TokError.eof ∧ z'.buf = z.buf ∧ z'.raw = z.raw ∧
      z'.expressionStack = z.expressionStack := by
  rw [show nextFuel z = (16 * z.buf.length + 124) + 4 by unfold nextFuel; omega]
  exact nextGo_err _ lab z he hlen hse

theorem nextCont_err (z : Tokenizer) (he : z.err = some TokError.eof)
    (hlen : z.buf.length ≤ z.raw.End) (hse : z.raw.Start = z.raw.End) :
    ∃ z', nextCont z = .ok z' ∧ z'.tt = TokenType.ErrorToken ∧
      z'.err = some TokError.eof ∧ z'.buf = z.buf ∧ z'.raw = z.raw ∧
      z'.expressionStack = z.expressionStack := by
  rw [nextCont]
  simp only []
  set z1 : Tokenizer := { z with textIsRaw := false, convertNUL := false } with hz1
  have he1 : z1.err = some TokError.eof := by simp [hz1, he]
  have hlen1 : z1.buf.length ≤ z1.raw.End := by simp [hz1]; exact hlen
  have hse1 : z1.raw.Start = z1.raw.End := by simp [hz1]; exact hse
  by_cases hfm : z1.fm ≠ FrontmatterState.FrontmatterClosed
  · rw [if_pos hfm]
    obtain ⟨z', hgo, p1, p2, p3, p4, p5⟩ := nextGoFull_err Label.frontmatterLoop z1 he1 hlen1 hse1
    exact ⟨z', hgo, p1, p2, by rw [p3], by rw [p4], by rw [p5]⟩
  · rw [if_neg hfm]
    by_cases hb : isAtExpressionBoundary z1
    · rw [if_pos hb]
      obtain ⟨z', hgo, p1, p2, p3, p4, p5⟩ := nextGoFull_err Label.expressionLoop z1 he1 hlen1 hse1
      exact ⟨z', hgo, p1, p2, by rw [p3], by rw [p4], by rw [p5]⟩
    · rw [if_neg hb]
      obtain ⟨z', hgo, p1, p2, p3, p4, p5⟩ := nextGoFull_err Label.mainLoop z1 he1 hlen1 hse1
      exact ⟨z', hgo, p1, p2, by rw [p3], by rw [p4], by rw [p5]⟩

theorem next_err (z : Tokenizer) (e : TokError) (he : z.err = some e)
    (hlen : z.buf.length ≤ z.raw.End) :
    ∃ z', next z = .ok z' ∧ z'.tt = TokenType.ErrorToken ∧ z'.err = some e ∧
      z'.buf = z.buf ∧ z'.raw.Start = z.raw.End ∧ z'.raw.End = z.raw.End ∧
      z'.expressionStack = z.expressionStack := by
  cases e
  rw [next]
  simp only []
  set z1 : Tokenizer := { z with raw.Start := z.raw.End, data.Start := z.raw.End,
                                 data.End := z.raw.End, prevTokenType := z.tt } with hz1
  have step2 : ∀ z2 : Tokenizer, z2.err = some TokError.eof →
      z2.buf.length ≤ z2.raw.End → z2.raw.Start = z2.raw.End →
      z2.raw.End = z.raw.End → z2.buf = z.buf →
      z2.expressionStack = z.expressionStack → z2.rawTag = z.rawTag →
      z2.data.Start = z.raw.End → z2.tt = z.tt →
      ∃ z', (if z2.rawTag ≠ ("") then
              if z2.rawTag = ("plaintext") then
                match readToEOF (innerFuel z2) z2 with
                | .error e => .error e
                | .ok z3 => nextAfterRaw { z3 with data.End := z3.raw.End, textIsRaw := true }
              else if z2.rawTag = ("title") ∨ z2.rawTag = ("textarea") then
                nextGo (nextFuel z2) Label.rawWithExprLoop z2
              else
                match readRawOrRCDATA (innerFuel z2) z2 with
                | .error e => .error e
                | .ok z3 => nextAfterRaw z3
            else nextCont z2) = .ok z' ∧
        z'.tt = TokenType.ErrorToken ∧ z'.err = some TokError.eof ∧
        z'.buf = z.buf ∧ z'.raw.Start = z.raw.End ∧ z'.raw.End = z.raw.End ∧
        z'.expressionStack = z.expressionStack := by
    intro z2 he2 hlen2 hse2 hre2 hbuf2 hes2 hrt2 hds2 htt2
    by_cases hA : z2.rawTag = ("")
    · rw [if_neg (by simp [hA])]
      obtain ⟨z', hgo, p1, p2, p3, p4, p5⟩ := nextCont_err z2 he2 hlen2 hse2
      exact ⟨z', hgo, p1, p2, by rw [p3, hbuf2], by rw [p4, hse2, hre2],
        by rw [p4, hre2], by rw [p5, hes2]⟩
    · rw [if_pos (by simp [hA])]
      by_cases hP : z2.rawTag = ("plaintext")
      · rw [if_pos hP]
        rw [show innerFuel z2 = (8 * z2.buf.length + 63) + 1 by unfold innerFuel; omega]
        rw [readToEOF_err _ z2 he2]
        simp only [nextAfterRaw]
        rw [if_neg (by simp; omega)]
        obtain ⟨z', hgo, p1, p2, p3, p4, p5⟩ := nextCont_err
          { z2 with data.End := z2.raw.End, textIsRaw := true }
          (by simp [he2]) (by simp [hlen2]) (by simp [hse2])
        exact ⟨z', hgo, p1, p2, by rw [p3]; exact hbuf2, by rw [p4]; simp [hse2, hre2],
          by rw [p4]; simp [hre2], by rw [p5]; simp [hes2]⟩
      · rw [if_neg hP]
        by_cases hT : z2.rawTag = ("title") ∨ z2.rawTag = ("textarea")
        · rw [if_pos hT]
          obtain ⟨z', hgo, p1, p2, p3, p4, p5⟩ := nextGoFull_err Label.rawWithExprLoop z2 he2 hlen2 hse2
          exact ⟨z', hgo, p1, p2, by rw [p3, hbuf2], by rw [p4, hse2, hre2],
            by rw [p4, hre2], by rw [p5, hes2]⟩
        · rw [if_neg hT]
          obtain ⟨z3, hrr, q1, q2, q3, q4, q5, q6, q7, q8, q9⟩ := readRawOrRCDATA_err z2 he2 hlen2
          rw [hrr]
          simp only [nextAfterRaw]
          rw [if_neg (by rw [q4, q5, hds2, hre2]; omega)]
          obtain ⟨z', hgo, p1, p2, p3, p4, p5⟩ := nextCont_err z3 q1
            (by rw [q2, q3]; exact hlen2) (by rw [q3, hse2])
          exact ⟨z', hgo, p1, p2, by rw [p3, q2, hbuf2], by rw [p4, q3, hse2, hre2],
            by rw [p4, q3, hre2], by rw [p5, q7, hes2]⟩
  by_cases hdamp : z1.fm = FrontmatterState.FrontmatterOpen ∧
      z1.tt ≠ TokenType.StartTagToken ∧ z1.tt ≠ TokenType.EndTagToken
  · rw [if_pos hdamp]
    exact step2 { z1 with openBraceIsExpressionStart := false } (by simp [hz1, he])
      (by simp [hz1]; exact hlen) (by simp [hz1]) (by simp [hz1]) (by simp [hz1])
      (by simp [hz1]) (by simp [hz1]) (by simp [hz1]) (by simp [hz1])
  · rw [if_neg hdamp]
    exact step2 z1 (by simp [hz1, he]) (by simp [hz1]; exact hlen) (by simp [hz1])
      (by simp [hz1]) (by simp [hz1]) (by simp [hz1]) (by simp [hz1]) (by simp [hz1])
      (by simp [hz1])

/-- C9: once the tokenizer has consumed the entire input, the end-of-input
condition (err = io.EOF, position at or past the end of the buffer) is
sticky: it is never reset, every subsequent call to Next returns an
ErrorToken with Err() reporting the end-of-input error, and no later call
ever returns a non-Error token. -/
theorem c9_sticky_end_of_input (z : Tokenizer) (e : TokError)
    (he : z.err = some e) (hlen : z.buf.length ≤ z.raw.End) :
    ∀ n, ∀ w ∈ traceOf z n, w.tt = TokenType.ErrorToken ∧ w.err = some e ∧
      Err w = some e := by
  cases e
  intro n
  induction n generalizing z with
  | zero => intro w hw; simp [traceOf] at hw
  | succ n ih =>
    intro w hw
    obtain ⟨z', hnext, p1, p2, p3, p4, p5, p6⟩ := next_err z TokError.eof he hlen
    rw [traceOf] at hw
    simp only [hnext] at hw
    rcases List.mem_cons.mp hw with rfl | hw
    · exact ⟨p1, p2, by rw [Err, if_neg (by simp [p1])]; exact p2⟩
    · exact ih z' (by rw [p3, p5]; exact hlen) p2 w hw

/-- The tokenizer state after draining an empty input: the end condition is
set with the position at the end of the buffer. -/
def c9State : Tokenizer :=
  match next (mkTokenizer ("")) with
  | .ok z => z
  | .error _ => mkTokenizer ("")

def c9Tok : Tokenizer := (traceOf c9State 2).getD 0 (mkTokenizer (""))

theorem c9_witness :
    c9Tok.tt = TokenType.ErrorToken ∧ c9Tok.err = some TokError.eof ∧
      Err c9Tok = some TokError.eof :=
  c9_sticky_end_of_input c9State TokError.eof (by decide) (by decide) 2 c9Tok (by decide)

/-- C10: for every node n, clone(n) returns a node with no parent, no
siblings and no children that copies n's Type, DataAtom, Data, attribute
list, Loc, CustomElement flag and Component flag, but does not copy n's
Namespace, Fragment flag or Expression flag: those are always empty/false
in the clone even when set on the original. -/
theorem c10_clone_copies_exact_fields (n : AstroNode.Node) :
    (clone n).Type' = n.Type' ∧
    (clone n).DataAtom = n.DataAtom ∧
    (clone n).Data = n.Data ∧
    (clone n).Attr = n.Attr ∧
    (clone n).Loc = n.Loc ∧
    (clone n).CustomElement = n.CustomElement ∧
    (clone n).Component = n.Component ∧
    (clone n).Namespace = ("") ∧
    (clone n).Fragment = false ∧
    (clone n).Expression = false ∧
    (clone n).Parent = none ∧
    (clone n).FirstChild = none ∧
    (clone n).LastChild = none ∧
    (clone n).PrevSibling = none ∧
    (clone n).NextSibling = none := by
  simp [clone]

/-- C6: for the input `< class="x">hi</>`, tokenization aborts with the
descriptive anonymous-fragment-with-attributes fatal fault: Next returns no
token at all and does not fall back to a permissive classification. -/
theorem c6_fragment_with_attrs_is_fatal :
    next (mkTokenizer ("< class=\"x\">hi</>")) =
      .error (.fragmentWithAttrs (("class=\"x\"").toList)) := by
  decide

/-- C2 counterexample: on `<script>var x = "</script>";</script>` the claimed
token stream (StartTag, one Text whose raw text is `var x = "</script>";`,
EndTag) is not what the tokenizer produces: the kinds differ and the text
token's raw span stops at the first `</script>`. -/
theorem c2_counterexample :
    kindsOf ("<script>var x = \"</script>\";</script>") 10 ≠
      [TokenType.StartTagToken, TokenType.TextToken, TokenType.EndTagToken,
       TokenType.ErrorToken] ∧
    ((tokensOf ("<script>var x = \"</script>\";</script>") 10).map (·.2)).get? 1 ≠
      some (("var x = \"</script>\";").toList) := by
  decide

/-- C2 amended: raw script scanning follows the HTML5 script-data automaton,
which is not string-aware: in `<script>var x = "</script>";</script>` the
first `</script>`, although inside a JavaScript string literal, closes the
raw script region, and the stream is StartTag(script), Text(raw
`var x = "`), EndTag(script), Text(raw `";`), EndTag(script). -/
theorem c2_script_first_end_tag_closes :
    tokensOf ("<script>var x = \"</script>\";</script>") 10 =
      [(TokenType.StartTagToken, ("<script>").toList),
       (TokenType.TextToken, ("var x = \"").toList),
       (TokenType.EndTagToken, ("</script>").toList),
       (TokenType.TextToken, ("\";").toList),
       (TokenType.EndTagToken, ("</script>").toList),
       (TokenType.ErrorToken, [])] := by
  decide

/-- C3 counterexample: the input `---\na\n---` is a line `---`, frontmatter
content `a` with no three-dash run, then a line `---`, yet only one
FrontmatterFenceToken is produced: the closing fence is recognized only
when a byte after the three dashes is read, so a document ending exactly at
the closing dashes never emits the second fence. -/
theorem c3_counterexample :
    kindsOf ("---\na\n---") 10 =
      [TokenType.FrontmatterFenceToken, TokenType.TextToken, TokenType.ErrorToken] := by
  decide

/-- C7 counterexample: inside an attribute expression a block comment
`/* c */` does not abort tokenization (the tag token is produced), while a
line comment `// c` is the construct that aborts with the fatal fault - the
opposite of the claim on both sides. -/
theorem c7_counterexample :
    ttOf (next (mkTokenizer ("<div k=\x7b/* c */ 1\x7d>"))) =
      some TokenType.StartTagToken ∧
    next (mkTokenizer ("<div k=\x7b// c\x7d>")) = .error .blockCommentInExpression := by
  decide

/-- C7 amended: while scanning an attribute expression value `k={...}`, a
line-comment opener `//` is the fatal, non-recoverable fault that aborts
tokenization (the Go panic message misnames it "Block comments (//)"),
whereas a block comment `/* ... */` is scanned inertly through
readCommentOrRegExp and tokenization continues, recording the attribute as
an expression attribute. -/
theorem c7_line_comment_fatal_block_comment_inert :
    (∀ fuel z, z.err = none →
      z.buf.getD z.raw.End nullChar = Char.ofNat 47 →
      z.buf.getD (z.raw.End + 1) nullChar = Char.ofNat 47 →
      z.raw.End + 1 < z.buf.length →
      readTagAttrExpressionLoop (fuel + 1) z = .error .blockCommentInExpression) ∧
    ttOf (next (mkTokenizer ("<a b=\x7b/* x */ 2\x7d>"))) = some TokenType.StartTagToken ∧
    (match next (mkTokenizer ("<a b=\x7b/* x */ 2\x7d>")) with
     | .ok z => z.attrTypes
     | .error _ => []) = [AttributeType.ExpressionAttribute] := by
  refine ⟨?_, by decide, by decide⟩
  intro fuel z herr h0 h1 hlt
  have hn1 : ¬ z.buf.length ≤ z.raw.End := by omega
  have hn2 : ¬ z.buf.length ≤ z.raw.End + 1 := by omega
  rw [List.getD_eq_getElem?_getD] at h0 h1
  simp only [readTagAttrExpressionLoop, readByte, List.getD_eq_getElem?_getD]
  rw [if_neg hn1]
  simp only [herr, h0, h1]
  simp [hn2, h1]

/-- Concrete entry state for applying the C7 fatal-fault lemma: an attribute
expression scan positioned at a line-comment opener. -/
def c7Entry : Tokenizer := mkTokenizer ("//x")

theorem c7_witness :
    readTagAttrExpressionLoop 1 c7Entry = .error .blockCommentInExpression :=
  c7_line_comment_fatal_block_comment_inert.1 0 c7Entry (by decide) (by decide)
    (by decide) (by decide)

theorem readStartTagClassify_fst (z : Tokenizer) : (readStartTagClassify z).1 = z := by
  unfold readStartTagClassify
  split_ifs <;> rfl

theorem readStartTagClassify_iff (z : Tokenizer) :
    ((readStartTagClassify z).2 = TokenType.SelfClosingTagToken ↔
      (startTagIn z voidElements = true ∨
       (z.err = none ∧ z.buf.getD (z.raw.End - 2) nullChar = Char.ofNat 47))) := by
  unfold readStartTagClassify
  split_ifs with h1 h2 <;> simp_all

theorem readStartTagFinish_iff (w : Tokenizer) :
    ((readStartTagFinish w).2 = TokenType.SelfClosingTagToken ↔
      (startTagIn (readStartTagFinish w).1 voidElements = true ∨
       ((readStartTagFinish w).1.err = none ∧
        (readStartTagFinish w).1.buf.getD ((readStartTagFinish w).1.raw.End - 2) nullChar =
          Char.ofNat 47))) := by
  unfold readStartTagFinish
  rw [readStartTagClassify_fst]
  exact readStartTagClassify_iff _

/-- C8: `<br>`, `<img src="x">` and `<path/>` each produce a
SelfClosingTagToken while `<div>` produces a StartTagToken, and in general
readStartTag classifies a start tag as SelfClosingTag exactly when its name
is one of the standard HTML void elements or the byte immediately before
the closing angle bracket is a slash. -/
theorem c8_void_and_self_closing :
    kindsOf ("<br>") 4 = [TokenType.SelfClosingTagToken, TokenType.ErrorToken] ∧
    kindsOf ("<img src=\"x\">") 4 =
      [TokenType.SelfClosingTagToken, TokenType.ErrorToken] ∧
    kindsOf ("<path/>") 4 = [TokenType.SelfClosingTagToken, TokenType.ErrorToken] ∧
    kindsOf ("<div>") 4 = [TokenType.StartTagToken, TokenType.ErrorToken] ∧
    ∀ fuel z z' tt, readStartTag fuel z = .ok (z', tt) →
      (tt = TokenType.SelfClosingTagToken ↔
        (startTagIn z' voidElements = true ∨
         (z'.err = none ∧ z'.buf.getD (z'.raw.End - 2) nullChar = Char.ofNat 47))) := by
  refine ⟨by decide, by decide, by decide, by decide, ?_⟩
  intro fuel z z' tt h
  unfold readStartTag at h
  cases hr : readTag fuel true z with
  | error e => rw [hr] at h; exact absurd h (by simp)
  | ok z1 =>
    rw [hr] at h
    simp only [Except.ok.injEq] at h
    have h2 := readStartTagFinish_iff z1
    rw [h] at h2
    exact h2

/-- Concrete entry state for applying the C8 classification lemma: the
tokenizer just after consuming the leading two bytes of `<br>`. -/
def c8Entry : Tokenizer := { mkTokenizer ("<br>") with raw := ⟨0, 2⟩ }

def c8Out : Tokenizer :=
  match readStartTag (innerFuel c8Entry) c8Entry with
  | .ok p => p.1
  | .error _ => mkTokenizer ("")

theorem c8_witness :
    TokenType.SelfClosingTagToken = TokenType.SelfClosingTagToken ↔
      (startTagIn c8Out voidElements = true ∨
       (c8Out.err = none ∧ c8Out.buf.getD (c8Out.raw.End - 2) nullChar = Char.ofNat 47)) :=
  c8_void_and_self_closing.2.2.2.2 (innerFuel c8Entry) c8Entry c8Out
    TokenType.SelfClosingTagToken (by decide)
